import Mathlib

/-!
Verification of the telnetlogger honeypot (`src/telnetlogger.c`).

The development shallowly embeds the NVT line reader `recv_nvt_line`,
the output routines `print_string`, `print_passwords`, `print_csv`,
and the per-connection session loop of `handle_connection`.

Bytes received from the socket are modelled as natural numbers below 256
(the C code reads into an `unsigned char`).  The byte source of a call is a
list of events: `Ev.byte c` models `recv` returning 1 with byte `c`,
`Ev.closed` models `recv` returning 0, and `Ev.err` models `recv`
returning a negative value.  Exhausting the list behaves like `Ev.closed`
(an orderly end of stream).
-/

namespace Telnetlogger

/-- One result of the `recv(fd, &c, 1, flags)` call in `recv_nvt_line`:
a received byte, an orderly close (`recv` returned 0), or a read error
(`recv` returned a negative value). -/
inductive Ev where
  | byte (c : Nat)
  | closed
  | err
deriving DecidableEq, Repr

/-- The per-byte effect of one iteration of the `while (!done)` loop of
`recv_nvt_line`: the new parser state, the accumulated content bytes
(the prefix `buf[0..offset)` of the C buffer), the bytes sent back to the
client so far, and whether the loop sets `done = 1`. -/
structure Iter where
  state : Int
  buf : List Nat
  sent : List Nat
  done : Bool
deriving DecidableEq, Repr

/-- The `switch (state)` body of `recv_nvt_line` (src/telnetlogger.c lines
283-379), translated case by case.  `sizeofBuf` is the `sizeof_buf`
argument; the append guard is the source's `offset + 1 < sizeof_buf`.
States: 0 = normal echoing, 1 = normal non-echoing, 2 = IAC seen,
3/4/5/6 = after WILL/WONT/DO/DONT, 20 = subnegotiation body,
21 = IAC seen inside a subnegotiation. -/
def nvtIter (sizeofBuf : Nat) (st : Int) (buf sent : List Nat) (c : Nat) : Iter :=
  if st = 0 ∨ st = 1 then
    if c = 255 then ⟨2, buf, sent, false⟩
    else if c = 0 then ⟨st, buf, sent, false⟩
    else if c = 10 then ⟨st, buf, sent, false⟩
    else if c = 13 then ⟨st, buf, sent, true⟩
    else if c = 127 then
      if buf = [] then ⟨st, buf, sent, false⟩
      else ⟨st, buf.dropLast, if st = 0 then sent ++ [8, 32, 8] else sent, false⟩
    else
      let bufd := if buf.length + 1 < sizeofBuf then (buf ++ [c], false) else (buf, true)
      let sent1 :=
        if st = 0 then (if c ≤ 26 then sent ++ [94, c + 64] else sent ++ [c]) else sent
      ⟨st, bufd.1, sent1, bufd.2 || c == 3 || c == 4⟩
  else if st = 2 then
    if c = 250 then ⟨20, buf, sent, false⟩
    else if c = 251 then ⟨3, buf, sent, false⟩
    else if c = 252 then ⟨4, buf, sent, false⟩
    else if c = 253 then ⟨5, buf, sent, false⟩
    else if c = 254 then ⟨6, buf, sent, false⟩
    else if c = 255 then
      ⟨0, if buf.length + 1 < sizeofBuf then buf ++ [255] else buf, sent, false⟩
    else ⟨0, buf, sent, false⟩
  else if st = 20 then
    if c = 255 then ⟨21, buf, sent, false⟩ else ⟨20, buf, sent, false⟩
  else if st = 21 then
    if c = 240 then ⟨0, buf, sent, false⟩ else ⟨20, buf, sent, false⟩
  else if st = 3 ∨ st = 4 ∨ st = 5 ∨ st = 6 then ⟨0, buf, sent, false⟩
  else ⟨0, buf, sent, false⟩

/-- The outcome of a call to `recv_nvt_line`: the C return value, the
content bytes `buf[0..offset)`, the value of the caller's `*in_state`
after the call, the bytes sent back to the client, and the unconsumed
remainder of the byte source. -/
structure NvtOut where
  ret : Int
  line : List Nat
  stateOut : Int
  sent : List Nat
  rest : List Ev
deriving DecidableEq, Repr

/-- The `while (!done)` loop of `recv_nvt_line` (src/telnetlogger.c lines
264-385).  `inState` is the state at entry (`*in_state`): on a read error
the source executes `return -1;` without writing `*in_state`, so the
caller's variable keeps its entry value.  On `recv` returning 0 the
source returns 0 persisting the current state if `offset == 0`, and
otherwise breaks out of the loop, completing the line with the
accumulated content. -/
def nvtRun (sizeofBuf : Nat) (inState : Int) :
    List Ev → Int → List Nat → List Nat → NvtOut
  | [], st, buf, sent =>
      if buf = [] then ⟨0, buf, st, sent, []⟩
      else ⟨(buf.length : Int), buf, st, sent, []⟩
  | Ev.err :: rest, _, buf, sent => ⟨-1, buf, inState, sent, rest⟩
  | Ev.closed :: rest, st, buf, sent =>
      if buf = [] then ⟨0, buf, st, sent, rest⟩
      else ⟨(buf.length : Int), buf, st, sent, rest⟩
  | Ev.byte c :: rest, st, buf, sent =>
      let i := nvtIter sizeofBuf st buf sent c
      if i.done then ⟨(i.buf.length : Int), i.buf, i.state, i.sent, rest⟩
      else nvtRun sizeofBuf inState rest i.state i.buf i.sent

/-- `recv_nvt_line(fd, buf, sizeof_buf, flags, in_state)`: starts with
`offset = 0` and `state = *in_state`, then runs the loop. -/
def recv_nvt_line (sizeofBuf : Nat) (events : List Ev) (st : Int) : NvtOut :=
  nvtRun sizeofBuf st events st [] []

/-- C-locale `isprint(v)` for `v = c & 0xFF` in `0..255`: true exactly for
`0x20..0x7E`. -/
def isprintC (b : Nat) : Bool := 32 ≤ b && b ≤ 126

/-- Lowercase hexadecimal digit, as produced by `%02x`. -/
def hexDigit (n : Nat) : Char :=
  if n < 10 then Char.ofNat (48 + n) else Char.ofNat (87 + n)

/-- The four characters printed by `fprintf(fp, "\\x%02x", c & 0xFF)`
for a byte value `v < 256`. -/
def escapeHex (v : Nat) : List Char :=
  ['\\', 'x', hexDigit (v / 16), hexDigit (v % 16)]

/-- The characters printed by one iteration of the loop of
`print_string` (src/telnetlogger.c lines 171-177): the byte is
hex-escaped when `!isprint(c & 0xFF)` or it is one of
`\\ < ' space " ,`, and passed through otherwise.
`b % 256` models `c & 0xFF`. -/
def renderByte (b : Nat) : List Char :=
  let v := b % 256
  if isprintC v = false ∨ v = 92 ∨ v = 60 ∨ v = 39 ∨ v = 32 ∨ v = 34 ∨ v = 44 then
    escapeHex v
  else [Char.ofNat v]

/-- `print_string(fp, str, len)` (src/telnetlogger.c lines 169-178):
renders each byte in turn. -/
def print_string (bs : List Nat) : String :=
  String.mk ((bs.map renderByte).flatten)

/-- `matches(rhs, lhs, len)` (src/telnetlogger.c lines 183-190):
`strlen(rhs) == len && memcmp(rhs, lhs, len) == 0`, i.e. the byte strings
are equal. -/
def matchesStr (rhs lhs : List Nat) : Bool := rhs == lhs

/-- The bytes of an ASCII string literal. -/
def strBytes (s : String) : List Nat := s.data.map Char.toNat

/-- `print_passwords(fp, login, login_len, password, password_len)`
(src/telnetlogger.c lines 195-214): suppresses `shell`/`sh` and
`enable`/`system`, otherwise prints the two sanitized fields separated by
a space.  Returns the emitted line, or `none` when suppressed. -/
def print_passwords (login password : List Nat) : Option String :=
  if matchesStr (strBytes "shell") login && matchesStr (strBytes "sh") password then none
  else if matchesStr (strBytes "enable") login && matchesStr (strBytes "system") password then
    none
  else some (print_string login ++ " " ++ print_string password ++ "\n")

/-- `print_csv(fp, hostname, login, login_len, password, password_len)`
(src/telnetlogger.c lines 235-251): unconditionally prints
`hostname,login,password` with the two credential fields sanitized. -/
def print_csv (hostname : String) (login password : List Nat) : String :=
  hostname ++ "," ++ print_string login ++ "," ++ print_string password ++ "\n"

/-- The observable outcome of one connection handled by
`handle_connection`: the CSV lines written to stdout, the number of
login prompts sent (the `send(fd, hello, ...)`), and the number of
`"\r\nLogin incorrect\r\n"` messages sent. -/
structure SessResult where
  csv : List String
  prompts : Nat
  incorrect : Nat
deriving DecidableEq, Repr

/-- The `again:` loop of `handle_connection` (src/telnetlogger.c lines
436-463), with `login`/`password` buffers of size 256.  Each iteration
sends a login prompt, reads the login, sends the password prompt
(forcing `state` from 0 to 1), reads the password, records the CSV line,
forces `state` from 1 back to 0, sends "Login incorrect", and retries
while `tries++ < 5`.  A non-positive read result jumps to `error`. -/
def sessionLoop (host : String) (events : List Ev) (st : Int) (tries : Nat) : SessResult :=
  let o1 := recv_nvt_line 256 events st
  if o1.ret ≤ 0 then ⟨[], 1, 0⟩
  else
    let st1 := if o1.stateOut = 0 then 1 else o1.stateOut
    let o2 := recv_nvt_line 256 o1.rest st1
    if o2.ret ≤ 0 then ⟨[], 1, 0⟩
    else
      let line := print_csv host o1.line o2.line
      let st2 := if o2.stateOut = 1 then 0 else o2.stateOut
      if tries < 5 then
        let r := sessionLoop host o2.rest st2 (tries + 1)
        ⟨line :: r.csv, 1 + r.prompts, 1 + r.incorrect⟩
      else ⟨[line], 1, 1⟩
termination_by 5 - tries
decreasing_by simp_wf; omega

/-- `handle_connection` starts with `state = 0` and `tries = 0`. -/
def handle_connection (host : String) (events : List Ev) : SessResult :=
  sessionLoop host events 0 0

/-- A subnegotiation payload `p` is well formed for the parser when,
running the subnegotiation states (20 and 21) of `recv_nvt_line` over
it starting in state 20, the parser never leaves the subnegotiation
(no `IAC SE` occurs inside `p`) and ends in state 20, so that a
following `IAC SE` terminates the block. -/
def subnegOk : List Nat → Int → Bool
  | [], st => st == 20
  | c :: p, st =>
      if st = 20 then subnegOk p (if c = 255 then 21 else 20)
      else if st = 21 then (if c = 240 then false else subnegOk p 20)
      else false

/-! ## Unfolding equations for the reader loop -/

theorem nvtRun_byte (n : Nat) (inSt st : Int) (c : Nat) (rest : List Ev)
    (buf sent : List Nat) :
    nvtRun n inSt (Ev.byte c :: rest) st buf sent =
      (let i := nvtIter n st buf sent c
       if i.done then ⟨(i.buf.length : Int), i.buf, i.state, i.sent, rest⟩
       else nvtRun n inSt rest i.state i.buf i.sent) := rfl

theorem nvtRun_err (n : Nat) (inSt st : Int) (rest : List Ev) (buf sent : List Nat) :
    nvtRun n inSt (Ev.err :: rest) st buf sent = ⟨-1, buf, inSt, sent, rest⟩ := rfl

theorem nvtRun_closed (n : Nat) (inSt st : Int) (rest : List Ev) (buf sent : List Nat) :
    nvtRun n inSt (Ev.closed :: rest) st buf sent =
      (if buf = [] then ⟨0, buf, st, sent, rest⟩
       else ⟨(buf.length : Int), buf, st, sent, rest⟩) := rfl

/-! ## C6 — end-of-stream and error handling of `recv_nvt_line` -/

/-- C6, counterexample.  The claim says a negative read result persists
the *current* parser state into the caller's state variable and that a
stream ending with content accumulated returns that content.  After
consuming a lone `0xFF` the current parser state is 2 (witnessed by the
orderly-close run, which does persist it), yet the error run returns -1
leaving the caller's variable at the entry state 0; and an error after
one accumulated content byte returns -1, not a 1-byte line. -/
theorem C6_counterexample :
    (recv_nvt_line 256 [Ev.byte 255, Ev.err] 0).ret = -1 ∧
    (recv_nvt_line 256 [Ev.byte 255, Ev.err] 0).stateOut = 0 ∧
    (recv_nvt_line 256 [Ev.byte 255, Ev.closed] 0).stateOut = 2 ∧
    (0 : Int) ≠ 2 ∧
    (recv_nvt_line 256 [Ev.byte 97, Ev.err] 0).ret = -1 ∧
    (-1 : Int) ≠ 1 := by
  refine ⟨by decide, by decide, by decide, by decide, by decide, by decide⟩

/-- C6, amended: a negative read result returns -1 immediately and leaves
the caller's state variable at its entry value (`inSt`), discarding any
accumulated content; a zero read result with no content accumulated
returns 0 and persists the current parser state; a zero read result with
content accumulated completes the line with the accumulated content. -/
theorem C6_stream_end_amended (inSt st : Int) (buf sent : List Nat) (rest : List Ev) :
    nvtRun 256 inSt (Ev.err :: rest) st buf sent = ⟨-1, buf, inSt, sent, rest⟩ ∧
    nvtRun 256 inSt (Ev.closed :: rest) st [] sent = ⟨0, [], st, sent, rest⟩ ∧
    (buf ≠ [] →
      nvtRun 256 inSt (Ev.closed :: rest) st buf sent =
        ⟨(buf.length : Int), buf, st, sent, rest⟩) := by
  refine ⟨rfl, by simp [nvtRun], fun h => by simp [nvtRun, h]⟩

/-- C6 witness: the closed-with-content case at a concrete input. -/
theorem C6_stream_end_amended_witness :
    ([97] : List Nat) ≠ [] ∧
    nvtRun 256 0 (Ev.closed :: []) 2 [97] [] = ⟨1, [97], 2, [], []⟩ := by
  refine ⟨by decide, (C6_stream_end_amended 0 2 [97] [] []).2.2 (by decide)⟩

/-! ## C8 — backspace handling -/

/-- C8: in a Normal state, byte `0x7F` removes the last accumulated
content byte when the buffer is non-empty, sending the erase sequence
backspace-space-backspace (`8 32 8`) only in echo mode (state 0); on an
empty buffer it is a no-op; and input "ab" followed by `0x7F` yields
buffer "a". -/
theorem C8_backspace (inSt : Int) (buf sent : List Nat) (rest : List Ev) :
    (buf ≠ [] →
      nvtRun 256 inSt (Ev.byte 127 :: rest) 0 buf sent =
        nvtRun 256 inSt rest 0 buf.dropLast (sent ++ [8, 32, 8])) ∧
    (buf ≠ [] →
      nvtRun 256 inSt (Ev.byte 127 :: rest) 1 buf sent =
        nvtRun 256 inSt rest 1 buf.dropLast sent) ∧
    nvtRun 256 inSt (Ev.byte 127 :: rest) 0 [] sent = nvtRun 256 inSt rest 0 [] sent ∧
    nvtRun 256 inSt (Ev.byte 127 :: rest) 1 [] sent = nvtRun 256 inSt rest 1 [] sent ∧
    (recv_nvt_line 256 [Ev.byte 97, Ev.byte 98, Ev.byte 127, Ev.byte 13] 0).line = [97] := by
  refine ⟨fun h => ?_, fun h => ?_, ?_, ?_, by decide⟩ <;>
    simp [nvtRun, nvtIter, *]

/-- C8 witness: backspace after "ab" in echo mode at concrete inputs. -/
theorem C8_backspace_witness :
    ([97, 98] : List Nat) ≠ [] ∧
    nvtRun 256 0 (Ev.byte 127 :: []) 0 [97, 98] [] =
      nvtRun 256 0 [] 0 ([97, 98] : List Nat).dropLast ([] ++ [8, 32, 8]) := by
  refine ⟨by decide, (C8_backspace 0 [97, 98] [] []).1 (by decide)⟩

/-! ## C10 — Ctrl-C / Ctrl-D termination -/

/-- C10: in a Normal state with room in the buffer, byte `0x03` or `0x04`
is appended to the content and the line completes immediately, so the
returned line ends with the control byte itself; in echo mode it is
echoed in caret notation. -/
theorem C10_ctrl_byte_completes (inSt s : Int) (buf sent : List Nat) (rest : List Ev)
    (c : Nat) (hc : c = 3 ∨ c = 4) (hs : s = 0 ∨ s = 1)
    (hroom : buf.length + 1 < 256) :
    nvtRun 256 inSt (Ev.byte c :: rest) s buf sent =
      ⟨((buf.length + 1 : Nat) : Int), buf ++ [c], s,
       if s = 0 then sent ++ [94, c + 64] else sent, rest⟩ := by
  rcases hc with h | h <;> rcases hs with h2 | h2 <;> subst h <;> subst h2 <;>
    simp [nvtRun, nvtIter, hroom]

/-- C10 witness: Ctrl-C as the first byte of an echoing read. -/
theorem C10_ctrl_byte_completes_witness :
    ((3 : Nat) = 3 ∨ (3 : Nat) = 4) ∧ (([] : List Nat).length + 1 < 256) ∧
    nvtRun 256 0 (Ev.byte 3 :: []) 0 [] [] = ⟨1, [3], 0, [94, 67], []⟩ := by
  refine ⟨Or.inl rfl, by decide, ?_⟩
  exact C10_ctrl_byte_completes 0 0 [] [] [] 3 (Or.inl rfl) (Or.inl rfl) (by decide)

/-! ## C9 — negotiation always exits to the echoing normal state -/

set_option maxHeartbeats 1000000 in
/-- C9: every exit from a telnet-negotiation parser state goes to the
echoing normal state 0, never to the non-echoing state 1 — after an
option verb (states 3-6), after an unrecognized or escaped byte
following IAC (state 2), and after `SE` ends a subnegotiation
(state 21); moreover state 1 is unreachable from any other state, and in
state 0 every content byte is echoed back to the client (caret notation
for bytes at most 26).  Hence after any negotiation during a
non-echoing password read, all subsequent content bytes are echoed. -/
theorem C9_negotiation_returns_to_echo :
    (∀ (st : Int) (buf sent : List Nat) (c : Nat),
        st = 3 ∨ st = 4 ∨ st = 5 ∨ st = 6 → (nvtIter 256 st buf sent c).state = 0) ∧
    (∀ (buf sent : List Nat) (c : Nat),
        c ≠ 250 → c ≠ 251 → c ≠ 252 → c ≠ 253 → c ≠ 254 →
        (nvtIter 256 2 buf sent c).state = 0) ∧
    (∀ (buf sent : List Nat), (nvtIter 256 21 buf sent 240).state = 0) ∧
    (∀ (st : Int) (buf sent : List Nat) (c : Nat),
        st ≠ 1 → (nvtIter 256 st buf sent c).state ≠ 1) ∧
    (∀ (buf sent : List Nat) (c : Nat),
        c ≠ 255 → c ≠ 0 → c ≠ 10 → c ≠ 13 → c ≠ 127 →
        (nvtIter 256 0 buf sent c).sent =
          sent ++ (if c ≤ 26 then [94, c + 64] else [c])) := by
  refine ⟨?_, ?_, ?_, ?_, ?_⟩
  · intro st buf sent c h
    rcases h with h | h | h | h <;> subst h <;> simp [nvtIter]
  · intro buf sent c h0 h1 h2 h3 h4
    unfold nvtIter
    split_ifs <;> simp_all
  · intro buf sent; simp [nvtIter]
  · intro st buf sent c h
    unfold nvtIter
    split_ifs <;> simp <;> omega
  · intro buf sent c h0 h1 h2 h3 h4
    unfold nvtIter
    split_ifs <;> simp_all

/-- C9 witness: a WILL verb exits to state 0, and the next content byte
of a password read is then echoed. -/
theorem C9_negotiation_returns_to_echo_witness :
    ((3 : Int) = 3 ∨ (3 : Int) = 4 ∨ (3 : Int) = 5 ∨ (3 : Int) = 6) ∧
    (nvtIter 256 3 [] [] 1).state = 0 ∧
    (nvtIter 256 0 [] [] 98).sent = [] ++ (if (98 : Nat) ≤ 26 then [94, 98 + 64] else [98]) := by
  refine ⟨Or.inl rfl, ?_, ?_⟩
  · exact C9_negotiation_returns_to_echo.1 3 [] [] 1 (Or.inl rfl)
  · exact C9_negotiation_returns_to_echo.2.2.2.2 [] [] 98 (by decide) (by decide) (by decide)
      (by decide) (by decide)

/-! ## C1 — verbatim content preservation -/

/-- Running the reader from a normal state over plain content bytes (none
of `0xFF`, NUL, LF, CR, DEL, Ctrl-C, Ctrl-D) followed by CR appends
exactly those bytes to the accumulated content and completes the line,
provided the total fits below the buffer bound. -/
theorem verbatim_aux (s inSt : Int) (rest : List Ev) (hs : s = 0 ∨ s = 1) :
    ∀ (bs buf sent : List Nat),
      (∀ b ∈ bs, b ≠ 255 ∧ b ≠ 0 ∧ b ≠ 10 ∧ b ≠ 13 ∧ b ≠ 127 ∧ b ≠ 3 ∧ b ≠ 4) →
      buf.length + bs.length ≤ 255 →
      (nvtRun 256 inSt (bs.map Ev.byte ++ Ev.byte 13 :: rest) s buf sent).line = buf ++ bs ∧
      (nvtRun 256 inSt (bs.map Ev.byte ++ Ev.byte 13 :: rest) s buf sent).ret =
        ((buf.length + bs.length : Nat) : Int) ∧
      (nvtRun 256 inSt (bs.map Ev.byte ++ Ev.byte 13 :: rest) s buf sent).stateOut = s ∧
      (nvtRun 256 inSt (bs.map Ev.byte ++ Ev.byte 13 :: rest) s buf sent).rest = rest := by
  intro bs
  induction bs with
  | nil =>
    intro buf sent _ _
    rcases hs with h | h <;> subst h <;> simp [nvtRun, nvtIter]
  | cons c bs ih =>
    intro buf sent hb hlen
    obtain ⟨h255, h0, h10, h13, h127, h3, h4⟩ := hb c (by simp)
    have hroom : buf.length + 1 < 256 := by simp at hlen; omega
    have hstep :
        nvtRun 256 inSt ((c :: bs).map Ev.byte ++ Ev.byte 13 :: rest) s buf sent =
          nvtRun 256 inSt (bs.map Ev.byte ++ Ev.byte 13 :: rest) s (buf ++ [c])
            (if s = 0 then (if c ≤ 26 then sent ++ [94, c + 64] else sent ++ [c])
             else sent) := by
      rcases hs with h | h <;> subst h <;>
        simp [nvtRun, nvtIter, h255, h0, h10, h13, h127, h3, h4, hroom]
    rw [hstep]
    have := ih (buf ++ [c])
      (if s = 0 then (if c ≤ 26 then sent ++ [94, c + 64] else sent ++ [c]) else sent)
      (fun b hbmem => hb b (List.mem_cons_of_mem c hbmem))
      (by simp at hlen ⊢; omega)
    obtain ⟨hl, hr, hst, hrest⟩ := this
    refine ⟨by rw [hl]; simp, by rw [hr]; congr 1; simp; omega, hst, hrest⟩

/-- C1 counterexample.  `0x7F` is not in the claim's excluded set, so the
claim requires the sequence `[0x7F]` followed by CR to be returned
verbatim, but the reader treats `0x7F` as backspace and returns an empty
line. -/
theorem C1_counterexample :
    (recv_nvt_line 256 [Ev.byte 127, Ev.byte 13] 0).line = [] ∧
    ([] : List Nat) ≠ [127] := by
  refine ⟨by decide, by decide⟩

/-- C1, amended: byte sequences of length at most 255 containing none of
`0xFF`, CR, LF, `0x00`, and also none of `0x7F` (backspace), `0x03`
(Ctrl-C), `0x04` (Ctrl-D), followed by CR, are returned verbatim by the
reader from either normal state. -/
theorem C1_verbatim_amended (bs : List Nat) (rest : List Ev) (s : Int)
    (hs : s = 0 ∨ s = 1)
    (hb : ∀ b ∈ bs, b < 256 ∧ b ≠ 255 ∧ b ≠ 0 ∧ b ≠ 10 ∧ b ≠ 13 ∧
          b ≠ 127 ∧ b ≠ 3 ∧ b ≠ 4)
    (hlen : bs.length ≤ 255) :
    (recv_nvt_line 256 (bs.map Ev.byte ++ Ev.byte 13 :: rest) s).line = bs ∧
    (recv_nvt_line 256 (bs.map Ev.byte ++ Ev.byte 13 :: rest) s).ret =
      ((bs.length : Nat) : Int) ∧
    (recv_nvt_line 256 (bs.map Ev.byte ++ Ev.byte 13 :: rest) s).stateOut = s ∧
    (recv_nvt_line 256 (bs.map Ev.byte ++ Ev.byte 13 :: rest) s).rest = rest := by
  have := verbatim_aux s s rest hs bs [] []
    (fun b hbmem => (hb b hbmem).2) (by simpa using hlen)
  simpa [recv_nvt_line] using this

/-- C1 witness: the two-byte sequence "hi" is returned verbatim. -/
theorem C1_verbatim_amended_witness :
    (recv_nvt_line 256 ([104, 105].map Ev.byte ++ Ev.byte 13 :: []) 0).line = [104, 105] ∧
    (recv_nvt_line 256 ([104, 105].map Ev.byte ++ Ev.byte 13 :: []) 0).ret = 2 ∧
    (recv_nvt_line 256 ([104, 105].map Ev.byte ++ Ev.byte 13 :: []) 0).stateOut = 0 ∧
    (recv_nvt_line 256 ([104, 105].map Ev.byte ++ Ev.byte 13 :: []) 0).rest = [] :=
  C1_verbatim_amended [104, 105] [] 0 (Or.inl rfl) (by decide) (by decide)

/-! ## C4 — subnegotiation payload is never surfaced -/

/-- Processing a well-formed subnegotiation payload from state 20 (or 21)
discards every payload byte and, together with the terminating
`IAC SE`, leaves the parser in state 0 with the content buffer and the
sent bytes untouched. -/
theorem subneg_absorb :
    ∀ (p : List Nat) (st : Int), (st = 20 ∨ st = 21) → subnegOk p st = true →
      ∀ (inSt : Int) (buf sent : List Nat) (rest : List Ev),
        nvtRun 256 inSt (p.map Ev.byte ++ Ev.byte 255 :: Ev.byte 240 :: rest) st buf sent =
          nvtRun 256 inSt rest 0 buf sent := by
  intro p
  induction p with
  | nil =>
    intro st hst hok inSt buf sent rest
    have h20 : st = 20 := by
      rcases hst with h | h
      · exact h
      · subst h; simp [subnegOk] at hok
    subst h20
    simp [nvtRun, nvtIter]
  | cons c p ih =>
    intro st hst hok inSt buf sent rest
    rcases hst with h | h <;> subst h
    · by_cases hc : c = 255
      · subst hc
        have hok2 : subnegOk p 21 = true := by simpa [subnegOk] using hok
        have hstep :
            nvtRun 256 inSt ((255 :: p).map Ev.byte ++ Ev.byte 255 :: Ev.byte 240 :: rest)
                20 buf sent =
              nvtRun 256 inSt (p.map Ev.byte ++ Ev.byte 255 :: Ev.byte 240 :: rest)
                21 buf sent := by
          simp [nvtRun, nvtIter]
        rw [hstep]
        exact ih 21 (Or.inr rfl) hok2 inSt buf sent rest
      · have hok2 : subnegOk p 20 = true := by simpa [subnegOk, hc] using hok
        have hstep :
            nvtRun 256 inSt ((c :: p).map Ev.byte ++ Ev.byte 255 :: Ev.byte 240 :: rest)
                20 buf sent =
              nvtRun 256 inSt (p.map Ev.byte ++ Ev.byte 255 :: Ev.byte 240 :: rest)
                20 buf sent := by
          simp [nvtRun, nvtIter, hc]
        rw [hstep]
        exact ih 20 (Or.inl rfl) hok2 inSt buf sent rest
    · have hc : c ≠ 240 := by
        intro hc; subst hc; simp [subnegOk] at hok
      have hok2 : subnegOk p 20 = true := by simpa [subnegOk, hc] using hok
      have hstep :
          nvtRun 256 inSt ((c :: p).map Ev.byte ++ Ev.byte 255 :: Ev.byte 240 :: rest)
              21 buf sent =
            nvtRun 256 inSt (p.map Ev.byte ++ Ev.byte 255 :: Ev.byte 240 :: rest)
              20 buf sent := by
        simp [nvtRun, nvtIter, hc]
      rw [hstep]
      exact ih 20 (Or.inl rfl) hok2 inSt buf sent rest

/-- C4: a well-formed subnegotiation block `IAC SB payload IAC SE`
arriving while the parser is in a normal state is absorbed completely:
the run over the block followed by any remainder equals the run over the
remainder alone (from the echoing normal state 0), so no payload byte
reaches the line content.  `subnegOk payload 20` admits payloads whose
`0xFF` bytes are not followed by `SE`. -/
theorem C4_subneg_transparent (inSt s : Int) (buf sent : List Nat)
    (payload : List Nat) (rest : List Ev) (hs : s = 0 ∨ s = 1)
    (hp : subnegOk payload 20 = true) :
    nvtRun 256 inSt
        (Ev.byte 255 :: Ev.byte 250 ::
          (payload.map Ev.byte ++ Ev.byte 255 :: Ev.byte 240 :: rest)) s buf sent =
      nvtRun 256 inSt rest 0 buf sent := by
  have hstep :
      nvtRun 256 inSt
          (Ev.byte 255 :: Ev.byte 250 ::
            (payload.map Ev.byte ++ Ev.byte 255 :: Ev.byte 240 :: rest)) s buf sent =
        nvtRun 256 inSt (payload.map Ev.byte ++ Ev.byte 255 :: Ev.byte 240 :: rest)
          20 buf sent := by
    rcases hs with h | h <;> subst h <;> simp [nvtRun, nvtIter]
  rw [hstep]
  exact subneg_absorb payload 20 (Or.inl rfl) hp inSt buf sent rest

/-- C4 witness: the payload `[1, 255, 7]` (containing a `0xFF` not
followed by `SE`) is fully absorbed during a non-echoing read, and the
following content byte is still returned. -/
theorem C4_subneg_transparent_witness :
    subnegOk [1, 255, 7] 20 = true ∧
    nvtRun 256 1
        (Ev.byte 255 :: Ev.byte 250 ::
          ([1, 255, 7].map Ev.byte ++ Ev.byte 255 :: Ev.byte 240 ::
            [Ev.byte 97, Ev.byte 13])) 1 [] [] =
      nvtRun 256 1 [Ev.byte 97, Ev.byte 13] 0 [] [] ∧
    (nvtRun 256 1 [Ev.byte 97, Ev.byte 13] 0 [] []).line = [97] := by
  refine ⟨by decide, ?_, by decide⟩
  exact C4_subneg_transparent 1 1 [] [] [1, 255, 7] [Ev.byte 97, Ev.byte 13]
    (Or.inr rfl) (by decide)

/-! ## C5 — the buffer never overflows -/

set_option maxHeartbeats 1000000 in
/-- One loop iteration keeps the content length below the buffer size:
bytes are only appended under the source's `offset + 1 < sizeof_buf`
guard. -/
theorem nvtIter_cap (n : Nat) (st : Int) (buf sent : List Nat) (c : Nat)
    (h : buf.length ≤ n - 1) :
    (nvtIter n st buf sent c).buf.length ≤ n - 1 := by
  unfold nvtIter
  split_ifs <;> simp_all [List.length_dropLast] <;> omega

/-- The reader never accumulates more than `sizeof_buf - 1` content
bytes. -/
theorem nvtRun_cap :
    ∀ (events : List Ev) (n : Nat) (inSt st : Int) (buf sent : List Nat),
      buf.length ≤ n - 1 →
      (nvtRun n inSt events st buf sent).line.length ≤ n - 1 := by
  intro events
  induction events with
  | nil =>
    intro n inSt st buf sent h
    by_cases hb : buf = [] <;> simp [nvtRun, hb] <;> simp_all
  | cons e rest ih =>
    intro n inSt st buf sent h
    cases e with
    | err => simpa [nvtRun] using h
    | closed => by_cases hb : buf = [] <;> simp [nvtRun, hb] <;> simp_all
    | byte c =>
      rw [nvtRun_byte]
      by_cases hd : (nvtIter n st buf sent c).done
      · simpa [hd] using nvtIter_cap n st buf sent c h
      · simpa [hd] using
          ih n inSt (nvtIter n st buf sent c).state (nvtIter n st buf sent c).buf
            (nvtIter n st buf sent c).sent (nvtIter_cap n st buf sent c h)

set_option maxRecDepth 4000 in
/-- C5 counterexample.  The claim reads the output buffer's capacity as
the C array size (256) and asserts a line one byte longer terminates at
exactly 256 content bytes; the reader's guard `offset + 1 < sizeof_buf`
stops one byte earlier, at 255. -/
theorem C5_counterexample :
    (recv_nvt_line 256 ((List.replicate 257 97).map Ev.byte) 0).line.length = 255 ∧
    (255 : Nat) ≠ 256 := by
  refine ⟨by decide, by decide⟩

set_option maxRecDepth 4000 in
/-- C5, amended: the accumulated content never exceeds `sizeof_buf - 1`
bytes (255 for the sessions' 256-byte buffers), and an input line of
length capacity-plus-one (257 plain bytes) forcibly terminates the line
at exactly 255 bytes, returning it as a completed line (positive return
value), not an error. -/
theorem C5_capacity_amended :
    (∀ (n : Nat) (events : List Ev) (inSt st : Int) (buf sent : List Nat),
        buf.length ≤ n - 1 →
        (nvtRun n inSt events st buf sent).line.length ≤ n - 1) ∧
    (recv_nvt_line 256 ((List.replicate 257 97).map Ev.byte) 0).line =
      List.replicate 255 97 ∧
    (recv_nvt_line 256 ((List.replicate 257 97).map Ev.byte) 0).ret = 255 := by
  refine ⟨fun n events inSt st buf sent h => nvtRun_cap events n inSt st buf sent h,
    by decide, by decide⟩

/-- C5 witness: the general bound applied to an empty buffer and a
one-byte stream. -/
theorem C5_capacity_amended_witness :
    ([] : List Nat).length ≤ 256 - 1 ∧
    (nvtRun 256 0 [Ev.byte 97] 0 [] []).line.length ≤ 256 - 1 :=
  ⟨by decide, C5_capacity_amended.1 256 [Ev.byte 97] 0 0 [] [] (by decide)⟩

/-! ## C7 — credential sanitization -/

/-- C7: `print_string` renders byte-by-byte; a byte that is
non-printable (outside `0x20..0x7E`) or is backslash (92), `<` (60),
single quote (39), double quote (34), space (32) or comma (44) becomes
the four characters `\xHH` (lowercase hex), and every other byte passes
through unchanged; the password `a,b` renders as `a\x2cb`. -/
theorem C7_print_string_escapes :
    (∀ (bs1 bs2 : List Nat),
        print_string (bs1 ++ bs2) = print_string bs1 ++ print_string bs2) ∧
    (∀ b : Nat, b < 256 →
        (b < 32 ∨ 126 < b ∨ b = 92 ∨ b = 60 ∨ b = 39 ∨ b = 34 ∨ b = 32 ∨ b = 44) →
        renderByte b = ['\\', 'x', hexDigit (b / 16), hexDigit (b % 16)]) ∧
    (∀ b : Nat, 32 ≤ b → b ≤ 126 →
        b ≠ 92 → b ≠ 60 → b ≠ 39 → b ≠ 34 → b ≠ 32 → b ≠ 44 →
        renderByte b = [Char.ofNat b]) ∧
    print_string [97, 44, 98] = "a\\x2cb" := by
  refine ⟨?_, ?_, ?_, by decide⟩
  · intro bs1 bs2
    show String.mk ((List.map renderByte (bs1 ++ bs2)).flatten) = _
    rw [List.map_append, List.flatten_append]
    rfl
  · intro b hb h
    have hv : b % 256 = b := Nat.mod_eq_of_lt hb
    have hcond : isprintC b = false ∨ b = 92 ∨ b = 60 ∨ b = 39 ∨ b = 32 ∨ b = 34 ∨ b = 44 := by
      simp only [isprintC, Bool.and_eq_false_iff, decide_eq_false_iff_not, not_le]
      omega
    simp only [renderByte, hv, if_pos hcond, escapeHex]
  · intro b h1 h2 h3 h4 h5 h6 h7 h8
    have hv : b % 256 = b := Nat.mod_eq_of_lt (by omega)
    have hcond :
        ¬(isprintC b = false ∨ b = 92 ∨ b = 60 ∨ b = 39 ∨ b = 32 ∨ b = 34 ∨ b = 44) := by
      simp only [isprintC, Bool.and_eq_false_iff, decide_eq_false_iff_not, not_le]
      omega
    simp only [renderByte, hv, if_neg hcond]

/-- C7 witness: the comma byte is escaped, the letter `a` passes
through. -/
theorem C7_print_string_escapes_witness :
    renderByte 44 = ['\\', 'x', hexDigit (44 / 16), hexDigit (44 % 16)] ∧
    renderByte 97 = [Char.ofNat 97] := by
  refine ⟨?_, ?_⟩
  · exact C7_print_string_escapes.2.1 44 (by decide) (by decide)
  · exact C7_print_string_escapes.2.2.1 97 (by decide) (by decide) (by decide) (by decide)
      (by decide) (by decide) (by decide) (by decide)

/-! ## C2 — what the session actually records -/

/-- C2 counterexample.  The claim says the recording operation invoked by
a session suppresses `shell`/`sh`.  The session calls `print_csv`
(src/telnetlogger.c line 453), which performs no suppression: a client
submitting login `shell` and password `sh` produces the output line
`1.2.3.4,shell,sh` (followed by a retry prompt), not no line. -/
theorem C2_counterexample :
    handle_connection "1.2.3.4"
        [Ev.byte 115, Ev.byte 104, Ev.byte 101, Ev.byte 108, Ev.byte 108, Ev.byte 13,
         Ev.byte 115, Ev.byte 104, Ev.byte 13] =
      ⟨["1.2.3.4,shell,sh\n"], 2, 1⟩ ∧
    ["1.2.3.4,shell,sh\n"] ≠ ([] : List String) := by
  constructor
  · simp only [handle_connection]
    rw [sessionLoop]; norm_num [recv_nvt_line, nvtRun, nvtIter]
    rw [sessionLoop]; norm_num [recv_nvt_line, nvtRun, nvtIter]
    decide
  · decide

/-- C2, amended: the suppression of `shell`/`sh` and `enable`/`system`
exists only in `print_passwords`, which no session invokes; the
session's recording path (`print_csv`) emits a line for these pairs too,
and `record("1.2.3.4","root","123456")` emits `1.2.3.4,root,123456`. -/
theorem C2_record_amended :
    handle_connection "1.2.3.4"
        [Ev.byte 114, Ev.byte 111, Ev.byte 111, Ev.byte 116, Ev.byte 13,
         Ev.byte 49, Ev.byte 50, Ev.byte 51, Ev.byte 52, Ev.byte 53, Ev.byte 54,
         Ev.byte 13] =
      ⟨["1.2.3.4,root,123456\n"], 2, 1⟩ ∧
    print_passwords (strBytes "shell") (strBytes "sh") = none ∧
    print_passwords (strBytes "enable") (strBytes "system") = none ∧
    print_passwords (strBytes "root") (strBytes "123456") = some "root 123456\n" ∧
    print_csv "1.2.3.4" (strBytes "shell") (strBytes "sh") = "1.2.3.4,shell,sh\n" := by
  refine ⟨?_, by decide, by decide, by decide, by decide⟩
  simp only [handle_connection]
  rw [sessionLoop]; norm_num [recv_nvt_line, nvtRun, nvtIter]
  rw [sessionLoop]; norm_num [recv_nvt_line, nvtRun, nvtIter]
  decide

/-! ## C3 — the retry cap -/

/-- Seven attempts worth of client input: each attempt sends login `a`
and password `b`, both CR-terminated. -/
def sevenAttempts : List Ev :=
  [Ev.byte 97, Ev.byte 13, Ev.byte 98, Ev.byte 13,
   Ev.byte 97, Ev.byte 13, Ev.byte 98, Ev.byte 13,
   Ev.byte 97, Ev.byte 13, Ev.byte 98, Ev.byte 13,
   Ev.byte 97, Ev.byte 13, Ev.byte 98, Ev.byte 13,
   Ev.byte 97, Ev.byte 13, Ev.byte 98, Ev.byte 13,
   Ev.byte 97, Ev.byte 13, Ev.byte 98, Ev.byte 13,
   Ev.byte 97, Ev.byte 13, Ev.byte 98, Ev.byte 13]

set_option maxHeartbeats 4000000 in
/-- A client with enough input for seven attempts gets exactly six
prompts, six CSV records and six "Login incorrect" messages before the
session closes. -/
theorem session_six_attempts :
    handle_connection "1.2.3.4" sevenAttempts =
      ⟨List.replicate 6 "1.2.3.4,a,b\n", 6, 6⟩ := by
  simp only [handle_connection, sevenAttempts]
  rw [sessionLoop]; norm_num [recv_nvt_line, nvtRun, nvtIter]
  rw [sessionLoop]; norm_num [recv_nvt_line, nvtRun, nvtIter]
  rw [sessionLoop]; norm_num [recv_nvt_line, nvtRun, nvtIter]
  rw [sessionLoop]; norm_num [recv_nvt_line, nvtRun, nvtIter]
  rw [sessionLoop]; norm_num [recv_nvt_line, nvtRun, nvtIter]
  rw [sessionLoop]; norm_num [recv_nvt_line, nvtRun, nvtIter]
  decide

/-- The retry loop `tries++ < 5` admits at most `6 - tries` further
iterations from retry counter `tries`: each iteration sends at most one
prompt, one CSV record and one "Login incorrect". -/
theorem sessionLoop_bound :
    ∀ (k : Nat) (tries : Nat), 5 - tries < k → tries ≤ 5 →
      ∀ (host : String) (events : List Ev) (st : Int),
        (sessionLoop host events st tries).prompts ≤ 6 - tries ∧
        (sessionLoop host events st tries).incorrect ≤ 6 - tries ∧
        (sessionLoop host events st tries).csv.length ≤ 6 - tries := by
  intro k
  induction k with
  | zero => intro tries h; exact absurd h (Nat.not_lt_zero _)
  | succ k ih =>
    intro tries hk h5 host events st
    rw [sessionLoop]
    dsimp only
    set o1 := recv_nvt_line 256 events st with ho1
    set s1 : Int := if o1.stateOut = 0 then 1 else o1.stateOut with hs1
    set o2 := recv_nvt_line 256 o1.rest s1 with ho2
    set s2 : Int := if o2.stateOut = 1 then 0 else o2.stateOut with hs2
    by_cases g1 : o1.ret ≤ 0
    · rw [if_pos g1]
      exact ⟨by simp <;> omega, by simp <;> omega, by simp <;> omega⟩
    · rw [if_neg g1]
      by_cases g2 : o2.ret ≤ 0
      · rw [if_pos g2]
        exact ⟨by simp <;> omega, by simp <;> omega, by simp <;> omega⟩
      · rw [if_neg g2]
        by_cases g3 : tries < 5
        · rw [if_pos g3]
          obtain ⟨hp, hi, hc⟩ := ih (tries + 1) (by omega) (by omega) host o2.rest s2
          refine ⟨?_, ?_, ?_⟩
          · show 1 + (sessionLoop host o2.rest s2 (tries + 1)).prompts ≤ 6 - tries
            omega
          · show 1 + (sessionLoop host o2.rest s2 (tries + 1)).incorrect ≤ 6 - tries
            omega
          · show (_ :: (sessionLoop host o2.rest s2 (tries + 1)).csv).length ≤ 6 - tries
            rw [List.length_cons]
            omega
        · rw [if_neg g3]
          exact ⟨by simp <;> omega, by simp <;> omega, by simp <;> omega⟩

/-- C3 counterexample.  The claim says the session closes after the 5th
"Login incorrect" without a 6th login prompt.  The loop guard
`tries++ < 5` permits a sixth full attempt: a client with input for
seven attempts receives 6 prompts and 6 "Login incorrect" messages. -/
theorem C3_counterexample :
    handle_connection "1.2.3.4" sevenAttempts =
      ⟨List.replicate 6 "1.2.3.4,a,b\n", 6, 6⟩ ∧
    (6 : Nat) ≠ 5 :=
  ⟨session_six_attempts, by decide⟩

/-- C3, amended: the cap on completed attempts is 6 — every connection
sends at most 6 login prompts, 6 CSV records and 6 "Login incorrect"
messages, and a client that keeps completing attempts gets exactly 6 of
each, after which the session closes without a 7th prompt. -/
theorem C3_retry_cap_amended :
    (∀ (host : String) (events : List Ev),
        (handle_connection host events).prompts ≤ 6 ∧
        (handle_connection host events).incorrect ≤ 6 ∧
        (handle_connection host events).csv.length ≤ 6) ∧
    handle_connection "1.2.3.4" sevenAttempts =
      ⟨List.replicate 6 "1.2.3.4,a,b\n", 6, 6⟩ := by
  refine ⟨fun host events => ?_, session_six_attempts⟩
  have := sessionLoop_bound 6 0 (by omega) (by omega) host events 0
  simpa [handle_connection] using this

end Telnetlogger
